import Mathlib

/-!
Verification of the first-event locator in `scripts/find_first_events.py`.

The script searches, per chain, for the first block at which a contract
emitted a log: an exponential probe with a growing window, followed by a
binary refinement inside the first window that contains a match, all under
a per-chain wall-clock deadline.

Embedding conventions:
* The remote `get_logs` primitive becomes an abstract function
  `QueryPrim : Nat → Nat → Option (List Nat)`; `none` is a failed call,
  `some l` a successful call whose matches have block numbers `l`
  (the code only inspects emptiness and the first element's block number).
* Python's `time.monotonic() < deadline` loop guards become a countdown
  `tl : Nat` of remaining before-deadline checks: each loop-head check
  consumes one unit, and the check reports "deadline elapsed" exactly when
  the countdown is exhausted.  "The deadline never elapses during the run"
  is then "`tl` exceeds the number of checks the run can make".
* Block numbers are `Nat`; ranges are inclusive on both ends, as in the
  JSON-RPC call.
* Besides the located block, the embedded loops also return the sequence of
  window sizes the `window` variable takes and the list of `(fromBlock,
  toBlock)` ranges actually queried, so that frame claims ("no further
  queries", "the locator is never invoked") are directly statable.
-/

namespace FindFirstEvents

/-- Result of one `eth_getLogs` call: `none` on RPC error, otherwise the
block numbers of the matching logs, in the order the endpoint returns them
(ascending by block for a conforming endpoint). -/
abbrev QueryPrim := Nat → Nat → Option (List Nat)

/-- `INIT_WINDOW = 2_000` from the script. -/
def INIT_WINDOW : Nat := 2000

/-- `MAX_WINDOW = 2_000_000` from the script. -/
def MAX_WINDOW : Nat := 2000000

/-- Mainnet identity-registry address constant from the script. -/
def MAINNET_IDENTITY : String := "0x8004A169FB4a3325136EB29fA0ceB6D2e539a432"

/-- Testnet identity-registry address constant from the script. -/
def TESTNET_IDENTITY : String := "0x8004A818BFB912233c491871b3d84c89A494BD9e"

/-- Outcome of the binary-refinement loop (lines 122–131): the final
frontier `[lo, hi]` together with the ranges it queried. -/
structure RefineOut where
  lo : Nat
  hi : Nat
  calls : List (Nat × Nat)
deriving DecidableEq

/-- Outcome of the probing loop, hence of `find_first_event` itself
(lines 104–140): the located block (or `none`), the sequence of values the
`window` variable took, and the ranges queried. -/
structure ProbeOut where
  result : Option Nat
  windows : List Nat
  calls : List (Nat × Nat)
deriving DecidableEq

/-- The refinement loop of `find_first_event` (lines 122–131):

    while hi - lo > INIT_WINDOW and time.monotonic() < deadline:
        mid = (lo + hi) // 2
        r = get_logs(rpc, address, lo, mid)
        if r is None: break
        if r: hi = int(r[0]["blockNumber"], 16)
        else: lo = mid + 1

`tl` is the deadline countdown; exhausting it is the `time.monotonic() <
deadline` guard failing, which exits the loop just like the size guard. -/
def refineLoop (q : QueryPrim) : Nat → Nat → Nat → RefineOut
  | 0, lo, hi => ⟨lo, hi, []⟩
  | tl + 1, lo, hi =>
    if INIT_WINDOW < hi - lo then
      let mid := (lo + hi) / 2
      match q lo mid with
      | none => ⟨lo, hi, [(lo, mid)]⟩
      | some [] =>
        let r := refineLoop q tl (mid + 1) hi
        ⟨r.lo, r.hi, (lo, mid) :: r.calls⟩
      | some (b :: _) =>
        let r := refineLoop q tl lo b
        ⟨r.lo, r.hi, (lo, mid) :: r.calls⟩
    else ⟨lo, hi, []⟩

/-- The refinement phase followed by the final precise fetch
(lines 121–134): run `refineLoop` on `[lo, hi]`, then

    r = get_logs(rpc, address, lo, hi)
    return int(r[0]["blockNumber"], 16) if r else hi

(`if r` is falsy both for a failed call and for an empty list). -/
def finalizeHit (q : QueryPrim) (tl lo hi : Nat) : Option Nat × List (Nat × Nat) :=
  let r := refineLoop q tl lo hi
  let fin := q r.lo r.hi
  ((match fin with
    | some (b :: _) => some b
    | _ => some r.hi),
   r.calls ++ [(r.lo, r.hi)])

/-- The probing loop of `find_first_event` (lines 108–140).  Per source:
`end = min(cursor + window - 1, latest)`; on a failed probe the window
shrinks to `max 500 (window / 4)` and the same cursor is retried once, a
second failure returning `None`; a non-empty result enters refinement via
`finalizeHit` with frontier `[cursor, firstMatch]`; an empty result
advances `cursor = end + 1` (the ORIGINAL `end`, even when the retry used a
shrunk window) and doubles the window capped at `MAX_WINDOW`.  `tl` is the
deadline countdown consumed by the `time.monotonic() < deadline` loop-head
check; at `0` the loop exits with `None` (the script's timeout return). -/
def probeLoop (q : QueryPrim) (latest : Nat) : Nat → Nat → Nat → ProbeOut
  | 0, _, _ => ⟨none, [], []⟩
  | tl + 1, cursor, window =>
    if cursor ≤ latest then
      let e := min (cursor + window - 1) latest
      match q cursor e with
      | none =>
        let w := max 500 (window / 4)
        let e2 := min (cursor + w - 1) latest
        match q cursor e2 with
        | none => ⟨none, [window, w], [(cursor, e), (cursor, e2)]⟩
        | some [] =>
          let r := probeLoop q latest tl (e + 1) (min (w * 2) MAX_WINDOW)
          ⟨r.result, window :: w :: r.windows, (cursor, e) :: (cursor, e2) :: r.calls⟩
        | some (b :: _) =>
          let f := finalizeHit q tl cursor b
          ⟨f.1, [window, w], (cursor, e) :: (cursor, e2) :: f.2⟩
      | some [] =>
        let r := probeLoop q latest tl (e + 1) (min (window * 2) MAX_WINDOW)
        ⟨r.result, window :: r.windows, (cursor, e) :: r.calls⟩
      | some (b :: _) =>
        let f := finalizeHit q tl cursor b
        ⟨f.1, [window], (cursor, e) :: f.2⟩
    else ⟨none, [], []⟩

/-- `find_first_event(rpc, address, deploy, latest)` (lines 102–140):
cursor starts at `deploy`, window at `INIT_WINDOW`; `tl` is the deadline
countdown.  Only the located block (the script's return value). -/
def find_first_event (q : QueryPrim) (deploy latest tl : Nat) : Option Nat :=
  (probeLoop q latest tl deploy INIT_WINDOW).result

/-- One chain row `(name, chain_id, deployment_block, rpc_url, is_testnet)`
from the script's `CHAINS` table. -/
structure ChainEntry where
  name : String
  chain_id : Nat
  deploy : Nat
  rpc : String
  is_testnet : Bool
deriving DecidableEq

/-- `scan_chain(entry)` (lines 143–160), with its three effectful
collaborators passed explicitly: `localFirst` is `from_local_parquet`,
`latestOf` is `get_latest_block`, `find` is `find_first_event` applied to
`(rpc, identity, deploy, latest)`.  Returns
`(name, chain_id, deploy, first, source)` exactly as the script does. -/
def scan_chain (localFirst : Nat → Option Nat) (latestOf : String → Option Nat)
    (find : String → String → Nat → Nat → Option Nat) (e : ChainEntry) :
    String × Nat × Nat × Option Nat × String :=
  let identity := if e.is_testnet then TESTNET_IDENTITY else MAINNET_IDENTITY
  match localFirst e.chain_id with
  | some first => (e.name, e.chain_id, e.deploy, some first, "parquet")
  | none =>
    match latestOf e.rpc with
    | none => (e.name, e.chain_id, e.deploy, none, "RPC down")
    | some latest =>
      match find e.rpc identity e.deploy latest with
      | some first => (e.name, e.chain_id, e.deploy, some first, "RPC scan")
      | none => (e.name, e.chain_id, e.deploy, none, "timeout/no events")

/-- The matches of a fixed event set `E` inside the inclusive range
`[a, b]`, ascending by block: the synthetic deterministic answer an honest
endpoint gives to `eth_getLogs(a, b)`. -/
def matchesIn (E : Nat → Bool) (a b : Nat) : List Nat :=
  (List.range' a (b + 1 - a)).filter E

/-- The honest deterministic query primitive over event set `E`: never
fails, answers each range query with exactly the matches of `E` in that
range, sorted ascending by block. -/
def honestQ (E : Nat → Bool) : QueryPrim :=
  fun a b => some (matchesIn E a b)

/-! ## Helper lemmas about the honest primitive's answers -/

/-- If `m` is the least element of `[a, a+n)` satisfying `E`, then filtering
the range by `E` puts `m` first. -/
lemma filter_range'_eq_cons (E : Nat → Bool) (m : Nat) (hm : E m = true) :
    ∀ n a, a ≤ m → m < a + n → (∀ x, a ≤ x → x < m → E x = false) →
      ∃ l, (List.range' a n).filter E = m :: l := by
  intro n
  induction n with
  | zero => intro a h1 h2 _; omega
  | succ k ih =>
    intro a h1 h2 h3
    rw [List.range'_succ, List.filter_cons]
    by_cases hEa : E a = true
    · have ham : a = m := by
        rcases Nat.eq_or_lt_of_le h1 with h | h
        · exact h
        · exact absurd hEa (by simp [h3 a le_rfl h])
      subst ham
      simp only [hEa, if_pos]
      exact ⟨_, rfl⟩
    · have hne : a ≠ m := fun h => hEa (h ▸ hm)
      simp only [Bool.not_eq_true] at hEa
      simp only [hEa, Bool.false_eq_true, if_false]
      exact ih (a + 1) (by omega) (by omega) (fun x hx1 hx2 => h3 x (by omega) hx2)

/-- If `m` is the least match of `E` in `[a, b]`, the honest answer to the
range query `[a, b]` is `m` followed by the later matches. -/
lemma matchesIn_eq_cons (E : Nat → Bool) (m a b : Nat) (hm : E m = true)
    (h1 : a ≤ m) (h2 : m ≤ b) (h3 : ∀ x, a ≤ x → x < m → E x = false) :
    ∃ l, matchesIn E a b = m :: l :=
  filter_range'_eq_cons E m hm (b + 1 - a) a h1 (by omega) h3

/-- If `E` matches nothing in `[a, b]`, the honest answer is the empty list. -/
lemma matchesIn_eq_nil (E : Nat → Bool) (a b : Nat)
    (h : ∀ x, a ≤ x → x ≤ b → E x = false) : matchesIn E a b = [] := by
  unfold matchesIn
  rw [List.filter_eq_nil_iff]
  intro x hx
  rw [List.mem_range'_1] at hx
  simp [h x hx.1 (by omega)]

/-! ## Result-only behaviour under uniformly empty / failing primitives -/

/-- If every query at or above the cursor and within the head answers with
an empty match list, the probing loop ends with the absence result `none`
(either by the cursor passing `latest` or by the deadline elapsing). -/
lemma probeLoop_result_none_of_empty (q : QueryPrim) (latest : Nat) :
    ∀ tl cursor window, (∀ a b, cursor ≤ a → b ≤ latest → q a b = some []) →
      (probeLoop q latest tl cursor window).result = none := by
  intro tl
  induction tl with
  | zero => intro cursor window _; rfl
  | succ k ih =>
    intro cursor window hq
    by_cases hc : cursor ≤ latest
    · have he : q cursor (min (cursor + window - 1) latest) = some [] :=
        hq _ _ le_rfl (min_le_right _ _)
      simp only [probeLoop, if_pos hc, he]
      exact ih _ _ (fun a b ha hb => hq a b (by omega) hb)
    · simp only [probeLoop, if_neg hc]

/-- Under the always-failing primitive the probing loop also ends with the
absence result `none` (via the shrink-and-retry escalation). -/
lemma probeLoop_result_none_of_fail (latest : Nat) :
    ∀ tl cursor window,
      (probeLoop (fun _ _ => none) latest tl cursor window).result = none := by
  intro tl cursor window
  cases tl with
  | zero => rfl
  | succ k =>
    by_cases hc : cursor ≤ latest
    · simp only [probeLoop, if_pos hc]
    · simp only [probeLoop, if_neg hc]

/-! ## Claim theorems -/

/-- C10: if the known lower bound strictly exceeds the chain head
(`latest < deploy`), `find_first_event` returns the absence result `none`
immediately, issuing no range query at all (empty call and window traces). -/
theorem deploy_above_head_returns_none_without_queries
    (q : QueryPrim) (deploy latest tl : Nat) (h : latest < deploy) :
    probeLoop q latest tl deploy INIT_WINDOW = ⟨none, [], []⟩ ∧
      find_first_event q deploy latest tl = none := by
  have hp : probeLoop q latest tl deploy INIT_WINDOW = ⟨none, [], []⟩ := by
    cases tl with
    | zero => rfl
    | succ k => simp only [probeLoop, if_neg (by omega : ¬deploy ≤ latest)]
  exact ⟨hp, by rw [find_first_event, hp]⟩

/-- C10 witness: with head 5 below deploy 7 the locator returns `none` with
no queries. -/
theorem deploy_above_head_returns_none_without_queries_witness :
    probeLoop (fun _ _ => some []) 5 10 7 INIT_WINDOW = ⟨none, [], []⟩ ∧
      find_first_event (fun _ _ => some []) 7 5 10 = none :=
  deploy_above_head_returns_none_without_queries (fun _ _ => some []) 7 5 10 (by decide)

/-- C9: the locator is a deterministic function of its arguments and of the
query primitive's responses — two invocations against pointwise-equal
primitives yield the same result. -/
theorem locator_deterministic (q1 q2 : QueryPrim) (deploy latest tl : Nat)
    (h : ∀ a b, q1 a b = q2 a b) :
    find_first_event q1 deploy latest tl = find_first_event q2 deploy latest tl := by
  have hq : q1 = q2 := funext fun a => funext fun b => h a b
  rw [hq]

/-- C9 witness: two invocations with the same synthetic primitive agree. -/
theorem locator_deterministic_witness :
    find_first_event (fun _ _ => some []) 0 5 3 =
      find_first_event (fun _ _ => some []) 0 5 3 :=
  locator_deterministic (fun _ _ => some []) (fun _ _ => some []) 0 5 3 (fun _ _ => rfl)

/-- C8: a present local-resolver value short-circuits `scan_chain`: the
returned row carries that block with source `"parquet"`, independently of
the chain-head lookup and of the locator (so neither is invoked: the result
is the same for every `latestOf` and every `find`). -/
theorem local_hit_short_circuits (localFirst : Nat → Option Nat) (e : ChainEntry)
    (b : Nat) (hl : localFirst e.chain_id = some b)
    (latestOf : String → Option Nat) (find : String → String → Nat → Nat → Option Nat) :
    scan_chain localFirst latestOf find e =
      (e.name, e.chain_id, e.deploy, some b, "parquet") := by
  unfold scan_chain
  rw [hl]

/-- C8 witness: the local resolver returns block 500 for a chain, so the
row is `(…, some 500, "parquet")` whatever the head lookup and the locator
would do. -/
theorem local_hit_short_circuits_witness :
    scan_chain (fun _ => some 500) (fun _ => none) (fun _ _ _ _ => some 0)
        ⟨"ChainX", 8453, 41663783, "https://mainnet.base.org", false⟩ =
      ("ChainX", 8453, 41663783, some 500, "parquet") :=
  local_hit_short_circuits (fun _ => some 500)
    ⟨"ChainX", 8453, 41663783, "https://mainnet.base.org", false⟩ 500 rfl
    (fun _ => none) (fun _ _ _ _ => some 0)

/-- C4: during probing, a single query failure replaces the window by
`max 500 (window / 4)` and issues exactly one retry at the same cursor over
the shrunk range; if the retry also fails, the loop stops at once with the
absence result and no further queries: the whole remaining call trace is
those two calls. -/
theorem failure_shrinks_retries_once_then_stops
    (q : QueryPrim) (latest cursor window tl : Nat)
    (hc : cursor ≤ latest) (ht : 0 < tl)
    (h1 : q cursor (min (cursor + window - 1) latest) = none)
    (h2 : q cursor (min (cursor + max 500 (window / 4) - 1) latest) = none) :
    probeLoop q latest tl cursor window =
      ⟨none, [window, max 500 (window / 4)],
       [(cursor, min (cursor + window - 1) latest),
        (cursor, min (cursor + max 500 (window / 4) - 1) latest)]⟩ := by
  obtain ⟨k, rfl⟩ : ∃ k, tl = k + 1 := ⟨tl - 1, by omega⟩
  simp only [probeLoop, if_pos hc, h1, h2]

/-- C4 witness: against the always-failing primitive, from cursor 0 with
head 10, the trace is exactly the probe and its single shrunk retry, and
the result is `none`. -/
theorem failure_shrinks_retries_once_then_stops_witness :
    probeLoop (fun _ _ => none) 10 5 0 2000 =
      ⟨none, [2000, max 500 (2000 / 4)],
       [(0, min (0 + 2000 - 1) 10), (0, min (0 + max 500 (2000 / 4) - 1) 10)]⟩ :=
  failure_shrinks_retries_once_then_stops (fun _ _ => none) 10 0 2000 5
    (by decide) (by decide) rfl rfl

/-- C5: a query failure during the binary-search refinement exits the loop
with the current frontier `[lo, hi]` unchanged; exactly one final query
over `[lo, hi]` follows, and the function returns that query's earliest
match when the result is a non-empty list and `hi` itself otherwise. -/
theorem refine_failure_keeps_frontier_then_finalizes
    (q : QueryPrim) (tl lo hi : Nat)
    (hw : INIT_WINDOW < hi - lo) (ht : 0 < tl)
    (hf : q lo ((lo + hi) / 2) = none) :
    finalizeHit q tl lo hi =
      ((match q lo hi with
        | some (b :: _) => some b
        | _ => some hi),
       [(lo, (lo + hi) / 2), (lo, hi)]) := by
  obtain ⟨k, rfl⟩ : ∃ k, tl = k + 1 := ⟨tl - 1, by omega⟩
  have hr : refineLoop q (k + 1) lo hi = ⟨lo, hi, [(lo, (lo + hi) / 2)]⟩ := by
    simp only [refineLoop, if_pos hw, hf]
  simp only [finalizeHit, hr, List.singleton_append]

/-- C5 witness: the first refinement query over `[0, 1500]` fails, the
frontier `[0, 3000]` is kept, the single final query over it returns an
empty list, and the function falls back to `hi = 3000`. -/
theorem refine_failure_keeps_frontier_then_finalizes_witness :
    finalizeHit (fun _ b => if b == 1500 then none else some []) 1 0 3000 =
      ((match (fun (_ b : Nat) => if b == 1500 then none else
          some ([] : List Nat)) 0 3000 with
        | some (b :: _) => some b
        | _ => some 3000),
       [(0, (0 + 3000) / 2), (0, 3000)]) :=
  refine_failure_keeps_frontier_then_finalizes
    (fun _ b => if b == 1500 then none else some []) 1 0 3000
    (by decide) (by decide) rfl

/-- C2 counterexample: the claim asserts the "no events" outcome is a value
distinct from the "timeout" and "unavailable" outcomes, but all three exits
of `find_first_event` return the same value `none`: with no matches
anywhere and an ample deadline (cursor passes the head), with the
always-failing primitive (double failure), and with an already-elapsed
deadline, the results coincide. -/
theorem outcomes_not_distinguishable :
    find_first_event (fun _ _ => some []) 0 10 100 =
        find_first_event (fun _ _ => none) 0 10 100 ∧
      find_first_event (fun _ _ => some []) 0 10 100 =
        find_first_event (fun _ _ => some []) 0 10 0 ∧
      find_first_event (fun _ _ => some []) 0 10 100 = none := by
  refine ⟨?_, ?_, ?_⟩ <;> decide

/-- C2 amended: when the primitive reports no matches anywhere at or below
the head, `find_first_event` returns `none` — but this is the very same
value produced when the deadline elapses and when a query failure persists;
the code does not distinguish the three terminal outcomes. -/
theorem no_events_returns_same_none_as_timeout_and_unavailable
    (q : QueryPrim) (deploy latest tl : Nat)
    (hq : ∀ a b, deploy ≤ a → b ≤ latest → q a b = some []) :
    find_first_event q deploy latest tl = none ∧
      find_first_event (fun _ _ => none) deploy latest tl = none ∧
      find_first_event q deploy latest 0 = none :=
  ⟨probeLoop_result_none_of_empty q latest tl deploy INIT_WINDOW hq,
   probeLoop_result_none_of_fail latest tl deploy INIT_WINDOW,
   rfl⟩

/-- The refinement loop does nothing once the frontier is within the
initial probe granularity. -/
lemma refineLoop_done (q : QueryPrim) (tl lo hi : Nat) (h : hi - lo ≤ INIT_WINDOW) :
    refineLoop q tl lo hi = ⟨lo, hi, []⟩ := by
  cases tl with
  | zero => rfl
  | succ k => simp only [refineLoop, if_neg (by omega : ¬INIT_WINDOW < hi - lo)]

/-- Refinement against the honest primitive preserves the frontier
invariant around the least match `m` and narrows the frontier to within the
initial granularity, given countdown at least the frontier width. -/
lemma refineLoop_honest (E : Nat → Bool) (m : Nat) (hm : E m = true) :
    ∀ tl lo hi, lo ≤ m → m ≤ hi → (∀ x, lo ≤ x → x < m → E x = false) →
      hi - lo ≤ tl →
      (refineLoop (honestQ E) tl lo hi).lo ≤ m ∧
        m ≤ (refineLoop (honestQ E) tl lo hi).hi ∧
        (refineLoop (honestQ E) tl lo hi).hi - (refineLoop (honestQ E) tl lo hi).lo ≤
          INIT_WINDOW ∧
        (∀ x, (refineLoop (honestQ E) tl lo hi).lo ≤ x → x < m → E x = false) := by
  intro tl
  induction tl with
  | zero =>
    intro lo hi h1 h2 h3 h4
    exact ⟨h1, h2, show hi - lo ≤ INIT_WINDOW by omega, h3⟩
  | succ k ih =>
    intro lo hi h1 h2 h3 h4
    by_cases hgt : INIT_WINDOW < hi - lo
    · by_cases hmid : m ≤ (lo + hi) / 2
      · obtain ⟨l, hl⟩ := matchesIn_eq_cons E m lo ((lo + hi) / 2) hm h1 hmid h3
        have hq : honestQ E lo ((lo + hi) / 2) = some (m :: l) := by simp [honestQ, hl]
        simp only [refineLoop, if_pos hgt, hq]
        exact ih lo m h1 le_rfl h3 (by omega)
      · have hq : honestQ E lo ((lo + hi) / 2) = some [] := by
          simp [honestQ,
            matchesIn_eq_nil E lo ((lo + hi) / 2) (fun x hx1 hx2 => h3 x hx1 (by omega))]
        simp only [refineLoop, if_pos hgt, hq]
        exact ih ((lo + hi) / 2 + 1) hi (by omega) h2
          (fun x hx1 hx2 => h3 x (by omega) hx2) (by omega)
    · rw [refineLoop_done _ _ _ _ (by omega)]
      exact ⟨h1, h2, show hi - lo ≤ INIT_WINDOW by omega, h3⟩

/-- Probing against the honest primitive from a cursor at or below the
least match `m` locates exactly `m`, provided the deadline countdown
exceeds the number of loop checks the run can make. -/
lemma probeLoop_honest (E : Nat → Bool) (latest m : Nat)
    (hm : E m = true) (hml : m ≤ latest) :
    ∀ tl cursor window, cursor ≤ m → 1 ≤ window →
      (∀ x, cursor ≤ x → x < m → E x = false) →
      latest + 2 - cursor ≤ tl →
      (probeLoop (honestQ E) latest tl cursor window).result = some m := by
  intro tl
  induction tl with
  | zero => intro cursor window h1 _ _ h4; omega
  | succ k ih =>
    intro cursor window h1 hw h3 h4
    have hc : cursor ≤ latest := le_trans h1 hml
    by_cases hhit : m ≤ min (cursor + window - 1) latest
    · obtain ⟨l, hl⟩ :=
        matchesIn_eq_cons E m cursor (min (cursor + window - 1) latest) hm h1 hhit h3
      have hq : honestQ E cursor (min (cursor + window - 1) latest) = some (m :: l) := by
        simp [honestQ, hl]
      simp only [probeLoop, if_pos hc, hq]
      obtain ⟨ha, hb, _, hd⟩ := refineLoop_honest E m hm k cursor m h1 le_rfl h3 (by omega)
      obtain ⟨l', hl'⟩ := matchesIn_eq_cons E m _ _ hm ha hb hd
      have hq2 : honestQ E (refineLoop (honestQ E) k cursor m).lo
          (refineLoop (honestQ E) k cursor m).hi = some (m :: l') := by
        simp [honestQ, hl']
      simp only [finalizeHit, hq2]
    · have hq : honestQ E cursor (min (cursor + window - 1) latest) = some [] := by
        simp [honestQ,
          matchesIn_eq_nil E cursor (min (cursor + window - 1) latest)
            (fun x hx1 hx2 => h3 x hx1 (by omega))]
      simp only [probeLoop, if_pos hc, hq]
      have hM : MAX_WINDOW = 2000000 := rfl
      apply ih
      · omega
      · omega
      · intro x hx1 hx2
        exact h3 x (by omega) hx2
      · omega

/-- C1: for a chain target with `deploy ≤ latest` and a deterministic,
never-failing primitive answering each range query with exactly the
matches (ascending by block) of a fixed event set `E`, if a match exists in
`[deploy, latest]` and the deadline never elapses (countdown exceeding the
checks the run can make), `find_first_event` returns the minimal matching
block in `[deploy, latest]`. -/
theorem locator_returns_minimal_match (E : Nat → Bool) (deploy latest tl : Nat)
    (hdl : deploy ≤ latest)
    (hex : ∃ b, deploy ≤ b ∧ b ≤ latest ∧ E b = true)
    (htl : latest + 2 ≤ tl) :
    ∃ m, find_first_event (honestQ E) deploy latest tl = some m ∧
      deploy ≤ m ∧ m ≤ latest ∧ E m = true ∧
      ∀ b, deploy ≤ b → b ≤ latest → E b = true → m ≤ b := by
  obtain ⟨hm1, hm2, hm3⟩ := Nat.find_spec hex
  refine ⟨Nat.find hex, ?_, hm1, hm2, hm3, ?_⟩
  · apply probeLoop_honest E latest (Nat.find hex) hm3 hm2 tl deploy INIT_WINDOW hm1
      (by simp [INIT_WINDOW]) ?_ (by omega)
    intro x hx1 hx2
    cases hEx : E x with
    | false => rfl
    | true => exact absurd ⟨hx1, by omega, hEx⟩ (Nat.find_min hex hx2)
  · intro b hb1 hb2 hb3
    exact Nat.find_min' hex ⟨hb1, hb2, hb3⟩

/-- C1 witness: single match at block 5 in `[0, 10]`; the locator returns
block 5, which is minimal. -/
theorem locator_returns_minimal_match_witness :
    ∃ m, find_first_event (honestQ (fun x => x == 5)) 0 10 12 = some m ∧
      0 ≤ m ∧ m ≤ 10 ∧ (m == 5) = true ∧
      ∀ b, 0 ≤ b → b ≤ 10 → (b == 5) = true → m ≤ b :=
  locator_returns_minimal_match (fun x => x == 5) 0 10 12 (by decide)
    ⟨5, by decide⟩ (by decide)

/-- C7: when the event set matches the lower bound itself, the first probe
already returns it, the refinement loop is never entered (the frontier
`[deploy, deploy]` has width 0, not above `INIT_WINDOW`, so the only calls
are the probe and the final precise fetch), and the locator returns exactly
the lower bound — zero skipped blocks. -/
theorem match_at_lower_bound_returned_immediately (E : Nat → Bool)
    (deploy latest tl : Nat) (hd : deploy ≤ latest) (ht : 0 < tl)
    (hE : E deploy = true) :
    probeLoop (honestQ E) latest tl deploy INIT_WINDOW =
      ⟨some deploy, [INIT_WINDOW],
       [(deploy, min (deploy + INIT_WINDOW - 1) latest), (deploy, deploy)]⟩ ∧
      find_first_event (honestQ E) deploy latest tl = some deploy := by
  obtain ⟨k, rfl⟩ : ∃ k, tl = k + 1 := ⟨tl - 1, by omega⟩
  obtain ⟨l, hl⟩ := matchesIn_eq_cons E deploy deploy
    (min (deploy + INIT_WINDOW - 1) latest) hE le_rfl
    (by have hI : INIT_WINDOW = 2000 := rfl; omega)
    (fun x hx1 hx2 => absurd hx2 (by omega))
  have hq : honestQ E deploy (min (deploy + INIT_WINDOW - 1) latest) =
      some (deploy :: l) := by simp [honestQ, hl]
  have hone : deploy + 1 - deploy = 1 := by omega
  have hfin : honestQ E deploy deploy = some [deploy] := by
    simp [honestQ, matchesIn, hone, hE]
  have hrd : refineLoop (honestQ E) k deploy deploy = ⟨deploy, deploy, []⟩ :=
    refineLoop_done _ _ _ _ (by omega)
  have hfh : finalizeHit (honestQ E) k deploy deploy =
      (some deploy, [(deploy, deploy)]) := by
    simp only [finalizeHit, hrd, hfin, List.nil_append]
  have hp : probeLoop (honestQ E) latest (k + 1) deploy INIT_WINDOW =
      ⟨some deploy, [INIT_WINDOW],
       [(deploy, min (deploy + INIT_WINDOW - 1) latest), (deploy, deploy)]⟩ := by
    simp only [probeLoop, if_pos hd, hq, hfh]
  exact ⟨hp, by rw [find_first_event, hp]⟩

/-- C7 witness: event set matching block 3, deploy 3, head 10: result is
exactly block 3 with only the probe and the final fetch issued. -/
theorem match_at_lower_bound_returned_immediately_witness :
    probeLoop (honestQ (fun x => x == 3)) 10 1 3 INIT_WINDOW =
      ⟨some 3, [INIT_WINDOW], [(3, min (3 + INIT_WINDOW - 1) 10), (3, 3)]⟩ ∧
      find_first_event (honestQ (fun x => x == 3)) 3 10 1 = some 3 :=
  match_at_lower_bound_returned_immediately (fun x => x == 3) 3 10 1
    (by decide) (by decide) (by decide)

/-- C2 amended witness: concrete no-events primitive over `[0, 10]`. -/
theorem no_events_returns_same_none_as_timeout_and_unavailable_witness :
    find_first_event (fun _ _ => some []) 0 10 100 = none ∧
      find_first_event (fun _ _ => none) 0 10 100 = none ∧
      find_first_event (fun _ _ => some []) 0 10 0 = none :=
  no_events_returns_same_none_as_timeout_and_unavailable
    (fun _ _ => some []) 0 10 100 (fun _ _ _ _ => rfl)

/-- Event set with a single match at block 1000, used for the gap-skip
scenario. -/
def gapE : Nat → Bool := fun x => x == 1000

/-- Primitive that fails exactly on the range `[0, 1999]` (the first probe)
and is honest for `gapE` everywhere else: the shrunk retry over `[0, 499]`
then truthfully reports no match, although the only match, block 1000,
lies in the unexamined remainder `(499, 1999]` of the failed window. -/
def gapQ : QueryPrim :=
  fun a b => if a == 0 && b == 1999 then none else some (matchesIn gapE a b)

set_option maxRecDepth 100000 in
/-- C3: when the probe over the original window `[0, 1999]` fails and the
retry over the shrunk window `[0, 499]` returns an empty list, the cursor
advances to 2000 — one past the end of the original pre-shrink window — so
every subsequent call starts strictly above 1999 and the blocks in
`(499, 1999]` are never queried again; the match at block 1000, which lies
only in that gap, is not returned. -/
theorem failed_window_gap_is_skipped :
    gapQ 0 1999 = none ∧
      gapQ 0 499 = some [] ∧
      (probeLoop gapQ 2999 10 0 INIT_WINDOW).calls =
        [(0, 1999), (0, 499), (2000, 2999)] ∧
      (∀ p ∈ (probeLoop gapQ 2999 10 0 INIT_WINDOW).calls.drop 2, 1999 < p.1) ∧
      (499 < 1000 ∧ 1000 ≤ 1999 ∧ gapE 1000 = true) ∧
      find_first_event gapQ 0 2999 10 = none := by
  refine ⟨?_, ?_, ?_, ?_, ?_, ?_⟩ <;> decide

/-- Every value the `window` variable takes stays within
`[500, MAX_WINDOW]`, for every primitive, provided it starts there:
growth is doubling capped at `MAX_WINDOW`, shrink is quartering floored
at 500. -/
lemma probeLoop_windows_bounded (q : QueryPrim) (latest : Nat) :
    ∀ tl cursor window, 500 ≤ window → window ≤ MAX_WINDOW →
      ∀ w ∈ (probeLoop q latest tl cursor window).windows,
        500 ≤ w ∧ w ≤ MAX_WINDOW := by
  have hM : MAX_WINDOW = 2000000 := rfl
  intro tl
  induction tl with
  | zero =>
    intro cursor window _ _ w hw
    simp only [probeLoop, List.not_mem_nil] at hw
  | succ k ih =>
    intro cursor window h1 h2 w hw
    by_cases hc : cursor ≤ latest
    · rcases hq1 : q cursor (min (cursor + window - 1) latest) with _ | logs
      · rcases hq2 : q cursor (min (cursor + max 500 (window / 4) - 1) latest)
          with _ | logs2
        · simp only [probeLoop, if_pos hc, hq1, hq2, List.mem_cons,
            List.not_mem_nil, or_false] at hw
          rcases hw with rfl | rfl
          · exact ⟨h1, h2⟩
          · constructor <;> omega
        · cases logs2 with
          | nil =>
            simp only [probeLoop, if_pos hc, hq1, hq2, List.mem_cons] at hw
            rcases hw with rfl | rfl | hw
            · exact ⟨h1, h2⟩
            · constructor <;> omega
            · exact ih _ _ (by omega) (by omega) w hw
          | cons b rest =>
            simp only [probeLoop, if_pos hc, hq1, hq2, List.mem_cons,
              List.not_mem_nil, or_false] at hw
            rcases hw with rfl | rfl
            · exact ⟨h1, h2⟩
            · constructor <;> omega
      · cases logs with
        | nil =>
          simp only [probeLoop, if_pos hc, hq1, List.mem_cons] at hw
          rcases hw with rfl | hw
          · exact ⟨h1, h2⟩
          · exact ih _ _ (by omega) (by omega) w hw
        | cons b rest =>
          simp only [probeLoop, if_pos hc, hq1, List.mem_cons,
            List.not_mem_nil, or_false] at hw
          subst hw
          exact ⟨h1, h2⟩
    · simp only [probeLoop, if_neg hc, List.not_mem_nil] at hw

/-- C6: throughout every execution of `find_first_event` — for every
primitive, including one that always fails — every value the `window`
variable takes lies between the shrink floor 500 and the maximum
2,000,000. -/
theorem window_always_within_bounds (q : QueryPrim) (deploy latest tl w : Nat)
    (hw : w ∈ (probeLoop q latest tl deploy INIT_WINDOW).windows) :
    500 ≤ w ∧ w ≤ 2000000 :=
  probeLoop_windows_bounded q latest tl deploy INIT_WINDOW
    (by decide) (by decide) w hw

/-- C6 witness: under the always-failing primitive the window sequence is
`[2000, 500]`; the value 500 produced by the shrink is within bounds. -/
theorem window_always_within_bounds_witness : 500 ≤ 500 ∧ 500 ≤ 2000000 :=
  window_always_within_bounds (fun _ _ => none) 0 10 5 500 (by decide)

end FindFirstEvents
